import Mathlib

/-!
Shallow embedding of the MET training repository (train.py, config.py).

Numeric row values are embedded as `Int`; numpy arrays as nested `List`s;
the per-row random permutations drawn by `rng.permutation(c)` are passed
in as explicit arguments; fallible numpy indexing / pandas row lookup is
embedded through `Option`.
-/

namespace MET

/-- `new_c = ((100 - mask_pct) * c) // 100` — the kept-column count
(train.py line 84, and `small_maxlen` at line 109). -/
def keptCount (mask_pct c : Nat) : Nat := ((100 - mask_pct) * c) / 100

/-- Per-row embedding of `mask_and_ind` (train.py lines 81-94), given the
permutation of `{0..c-1}` drawn for this row.  `rem_idx` is the FIRST
`c - new_c` entries of the permutation, `new_idx` the remaining LAST
`new_c` entries; both are then sorted ascending, and the kept values are
gathered from the row at `new_idx`.  Returns `(new_arr, new_idx, rem_idx)`. -/
def mask_and_ind_row (mask_pct : Nat) (row : List Int) (perm : List Nat) :
    List Int × List Nat × List Nat :=
  let c := row.length
  let new_c := keptCount mask_pct c
  let rem_c := c - new_c
  let rem_idx := List.insertionSort (· ≤ ·) (perm.take rem_c)
  let new_idx := List.insertionSort (· ≤ ·) (perm.drop rem_c)
  let new_arr := new_idx.map (fun j => row.getD j 0)
  (new_arr, new_idx, rem_idx)

/-- MaskSplitter as the spec words it: "the permutation's last `C-K` entries
(after sorting ascending) become `maskedIdx`, the first `K` (after sorting
ascending) become `keptIdx`"; values gathered at `keptIdx`.
Returns `(keptVals, keptIdx, maskedIdx)`. -/
def mask_and_ind_spec (mask_pct : Nat) (row : List Int) (perm : List Nat) :
    List Int × List Nat × List Nat :=
  let c := row.length
  let K := keptCount mask_pct c
  let keptIdx := List.insertionSort (· ≤ ·) (perm.take K)
  let maskedIdx := List.insertionSort (· ≤ ·) (perm.drop K)
  let keptVals := keptIdx.map (fun j => row.getD j 0)
  (keptVals, keptIdx, maskedIdx)

/-- One row's contribution to a batch, as appended by the loop in
`DataGenerator.__data_generation` (train.py lines 137-142). -/
structure RowEntry where
  kv : List Int
  ki : List Nat
  mi : List Nat
  ones : List Int
  tgt : List Int
deriving DecidableEq

/-- Build one `RowEntry`: kept values `new_arr[i]`, kept indices `new_idx[i]`,
masked indices `rem_idx[i]`, the all-ones vector `np.ones(small_maxlen)`, and
the target `arr[i][list(new_idx[i]) + list(rem_idx[i])]`. -/
def rowEntry (mask_pct small_maxlen : Nat) (row : List Int) (perm : List Nat) :
    RowEntry :=
  let s := mask_and_ind_row mask_pct row perm
  { kv := s.1
    ki := s.2.1
    mi := s.2.2
    ones := List.replicate small_maxlen 1
    tgt := (s.2.1 ++ s.2.2).map (fun j => row.getD j 0) }

/-- The value returned by `DataGenerator.__data_generation`:
`X_train = [kept values, kept indices, masked indices, ones]` stacked over the
batch, and `Y_train` after `np.expand_dims(Y_train, -1)` (shape B × C × 1). -/
structure Batch where
  x0 : List (List Int)
  x1 : List (List Nat)
  x2 : List (List Nat)
  x3 : List (List Int)
  y : List (List (List Int))
deriving DecidableEq

/-- Sequential fallible mapping: models a Python loop that appends one
result per element and raises (aborts) on the first failing element. -/
def optionMapAll (f : α → Option β) : List α → Option (List β)
  | [] => some []
  | a :: l => do
    let b ← f a
    let bs ← optionMapAll f l
    pure (b :: bs)

/-- Embedding of `DataGenerator.__data_generation` (train.py lines 129-150):
the loop `for i in range(self.batch_size)` indexes `new_arr[i]`, `new_idx[i]`,
`rem_idx[i]` and `arr[i]`, raising IndexError (here: `none`) as soon as `i`
falls outside the rows actually selected (or outside the drawn permutations);
otherwise it stacks the per-row entries and expands the last axis of `Y`. -/
def dataGeneration (mask_pct batch_size small_maxlen : Nat)
    (rows : List (List Int)) (perms : List (List Nat)) : Option Batch := do
  let entries ← optionMapAll (fun i => do
      let row ← rows.get? i
      let perm ← perms.get? i
      pure (rowEntry mask_pct small_maxlen row perm))
    (List.range batch_size)
  pure { x0 := entries.map RowEntry.kv
         x1 := entries.map RowEntry.ki
         x2 := entries.map RowEntry.mi
         x3 := entries.map RowEntry.ones
         y := entries.map (fun e => e.tgt.map (fun v => [v])) }

/-- The batch that `dataGeneration` produces when every index is in range. -/
def batchOf (mask_pct batch_size small_maxlen : Nat)
    (rows : List (List Int)) (perms : List (List Nat)) : Batch :=
  let entries := (List.range batch_size).map
    (fun i => rowEntry mask_pct small_maxlen (rows.getD i []) (perms.getD i []))
  { x0 := entries.map RowEntry.kv
    x1 := entries.map RowEntry.ki
    x2 := entries.map RowEntry.mi
    x3 := entries.map RowEntry.ones
    y := entries.map (fun e => e.tgt.map (fun v => [v])) }

/-- State of a `DataGenerator` (train.py lines 97-127): the full table read
from the CSV (each row still carrying the leading identifier column), the
index list, and the derived `maxlen` / `small_maxlen`. -/
structure DataGenerator where
  table : List (List Int)
  indexes : List Nat
  mask_pct : Nat
  batch_size : Nat
  maxlen : Nat
  small_maxlen : Nat
deriving DecidableEq

/-- `DataGenerator.__init__` (train.py lines 100-111): stores the parameters
unchecked, sets `maxlen = len(columns) - 1` and
`small_maxlen = ((100 - mask_pct) * maxlen) // 100`.  There is no batch-size
validation of any kind. -/
def mkDataGenerator (numColumns : Nat) (table : List (List Int))
    (indexes : List Nat) (mask_pct batch_size : Nat) : DataGenerator :=
  { table := table
    indexes := indexes
    mask_pct := mask_pct
    batch_size := batch_size
    maxlen := numColumns - 1
    small_maxlen := keptCount mask_pct (numColumns - 1) }

/-- `DataGenerator.__len__` (train.py lines 113-116):
`floor(len(indexes) / batch_size)`. -/
def DataGenerator.len (dg : DataGenerator) : Nat :=
  dg.indexes.length / dg.batch_size

/-- The index slice `self.indexes[index*batch_size : (index+1)*batch_size]`
taken by `DataGenerator.__getitem__` (train.py line 120). -/
def getItemSlice (dg : DataGenerator) (index : Nat) : List Nat :=
  (dg.indexes.drop (index * dg.batch_size)).take dg.batch_size

/-- `DataGenerator.__getitem__` (train.py lines 118-122): slice the index
list, look the selected rows up in the table (`orig_df.loc[indexes]`),
drop the identifier column (`.iloc[:, 1:]`), and run `__data_generation`. -/
def DataGenerator.getItem (dg : DataGenerator) (perms : List (List Nat))
    (index : Nat) : Option Batch := do
  let rows ← optionMapAll (fun ix => (dg.table.get? ix).map (List.drop 1))
    (getItemSlice dg index)
  dataGeneration dg.mask_pct dg.batch_size dg.small_maxlen rows perms

/-- The orchestrator's clamp `batch_size = min(batch_size, len(indexes_trn),
len(indexes_tst))` (train.py line 221). -/
def clampBatchSize (batch_size train_len test_len : Nat) : Nat :=
  min batch_size (min train_len test_len)

/-- Observable side effects of the checkpoint-probe region of
`train_METModel` (train.py lines 281-293). -/
inductive TrainEvent
  | loadAttempt (success : Bool)
  | fitLoop (epochs : Nat)
deriving DecidableEq

/-- Event trace of train.py lines 281-293: `try: model.load_weights(...)`
— on success nothing else runs; on any exception `model.fit(...)` runs for
`num_epochs` epochs and the best checkpoint is then re-loaded. The outcome
of the first load call is the `loadSucceeds` parameter. -/
def train_checkpoint_events (loadSucceeds : Bool) (num_epochs : Nat) :
    List TrainEvent :=
  if loadSucceeds then [TrainEvent.loadAttempt true]
  else [TrainEvent.loadAttempt false, TrainEvent.fitLoop num_epochs,
        TrainEvent.loadAttempt true]

/-- Position-embedding lookup `self.pos_emb(positions)`: one table row per
position index. -/
def posEmbLookup (table : List (List Int)) (positions : List Nat) :
    List (List Int) :=
  positions.map (fun p => table.getD p [])

/-- Output of `TokenAndPositionEmbedding.call`. -/
structure EmbedderOutput where
  keptStream : List (List (List Int))
  maskStream : List (List (List Int))
deriving DecidableEq

/-- Embedding of `TokenAndPositionEmbedding.call` (train.py lines 196-205):
`positions_unmask` is always embedded; `positions_mask` is embedded only when
`positions_mask.shape[1] >= 2` (the per-row masked count), otherwise the
masked stream is the explicit empty list; the value tensor gets a trailing
axis and is concatenated with the unmask embeddings along the feature axis. -/
def tokenAndPositionEmbedding_call (table : List (List Int))
    (x : List (List Int)) (positions_unmask positions_mask : List (List Nat)) :
    EmbedderOutput :=
  let pu := positions_unmask.map (posEmbLookup table)
  let pm := if 2 ≤ (positions_mask.getD 0 []).length
    then positions_mask.map (posEmbLookup table) else []
  let xs := (x.zip pu).map (fun rp => (rp.1.zip rp.2).map (fun vp => vp.1 :: vp.2))
  { keptStream := xs, maskStream := pm }

/-- Embedding of `Paths.validate_path_len` (config.py lines 52-55): the loop
`for path in self.__dict__` iterates over the ATTRIBUTE NAMES of the object
(a Python dict iterates its keys), so the assertion `len(path) < 260` is
checked against each attribute name, never against the configured path
values. The attribute dict is embedded as a name/value association list;
`true` means no assertion fires. -/
def validate_path_len (attrs : List (String × String)) : Bool :=
  attrs.all (fun kv => kv.1.length < 260)

/-! ### Helper lemmas -/

theorem optionMapAll_eq_map (f : α → Option β) (g : α → β) :
    ∀ l : List α, (∀ a ∈ l, f a = some (g a)) → optionMapAll f l = some (l.map g)
  | [], _ => rfl
  | a :: l, h => by
    have ha := h a (List.mem_cons_self a l)
    have hl := optionMapAll_eq_map f g l (fun b hb => h b (List.mem_cons_of_mem a hb))
    simp [optionMapAll, ha, hl]

theorem optionMapAll_none (f : α → Option β) :
    ∀ (l : List α) (a : α), a ∈ l → f a = none → optionMapAll f l = none
  | b :: l, a, ha, hf => by
    rcases List.mem_cons.mp ha with h | h
    · subst h; simp [optionMapAll, hf]
    · cases hfb : f b with
      | none => simp [optionMapAll, hfb]
      | some v => simp [optionMapAll, hfb, optionMapAll_none f l a h hf]

theorem optionMapAll_length (f : α → Option β) :
    ∀ (l : List α) (l' : List β), optionMapAll f l = some l' → l'.length = l.length
  | [], l', h => by
    simp [optionMapAll] at h
    simp [← h]
  | a :: l, l', h => by
    cases hfa : f a with
    | none => simp [optionMapAll, hfa] at h
    | some b =>
      cases hrec : optionMapAll f l with
      | none => simp [optionMapAll, hfa, hrec] at h
      | some bs =>
        simp [optionMapAll, hfa, hrec] at h
        have := optionMapAll_length f l bs hrec
        simp [← h, this]

theorem get?_eq_some_getD (l : List α) (j : Nat) (d : α) (h : j < l.length) :
    l.get? j = some (l.getD j d) := by
  rw [List.getD_eq_getElem?_getD, List.get?_eq_getElem?]
  rcases List.getElem?_eq_some_iff.mpr ⟨h, rfl⟩ with h'
  simp [h']

theorem getD_map_of_lt (f : α → β) (l : List α) (j : Nat) (d : α) (d' : β)
    (h : j < l.length) : (l.map f).getD j d' = f (l.getD j d) := by
  rw [List.getD_eq_getElem?_getD, List.getD_eq_getElem?_getD,
    List.getElem?_map]
  rcases List.getElem?_eq_some_iff.mpr ⟨h, rfl⟩ with h'
  simp [h']

theorem keptCount_le (mask_pct c : Nat) : keptCount mask_pct c ≤ c := by
  unfold keptCount
  calc ((100 - mask_pct) * c) / 100 ≤ (100 * c) / 100 :=
        Nat.div_le_div_right (Nat.mul_le_mul_right c (by omega))
    _ = c := Nat.mul_div_cancel_left c (by norm_num)

/-- When every position `i < batch_size` has a row and a permutation,
`__data_generation` succeeds and produces `batchOf`. -/
theorem dataGeneration_eq_batchOf (p B sm : Nat) (rows : List (List Int))
    (perms : List (List Nat)) (hr : B ≤ rows.length) (hq : B ≤ perms.length) :
    dataGeneration p B sm rows perms = some (batchOf p B sm rows perms) := by
  have hmap : optionMapAll (fun i => do
      let row ← rows.get? i
      let perm ← perms.get? i
      pure (rowEntry p sm row perm)) (List.range B) =
      some ((List.range B).map
        (fun i => rowEntry p sm (rows.getD i []) (perms.getD i []))) := by
    apply optionMapAll_eq_map
    intro i hi
    have hiB : i < B := List.mem_range.mp hi
    rw [get?_eq_some_getD rows i [] (lt_of_lt_of_le hiB hr),
      get?_eq_some_getD perms i [] (lt_of_lt_of_le hiB hq)]
    rfl
  unfold dataGeneration batchOf
  rw [hmap]
  rfl

/-- A short row list (fewer rows than `batch_size`) makes
`__data_generation` fail: the loop indexes past the end. -/
theorem dataGeneration_none_of_short (p B sm : Nat) (rows : List (List Int))
    (perms : List (List Nat)) (h : rows.length < B) :
    dataGeneration p B sm rows perms = none := by
  have hmem : rows.length ∈ List.range B := List.mem_range.mpr h
  have hfail : (do
      let row ← rows.get? rows.length
      let perm ← perms.get? rows.length
      pure (rowEntry p sm row perm) : Option RowEntry) = none := by
    have : rows.get? rows.length = none := by
      rw [List.get?_eq_getElem?]
      exact List.getElem?_eq_none (le_refl _)
    simp [this]
  have hmap := optionMapAll_none
    (fun i => do
      let row ← rows.get? i
      let perm ← perms.get? i
      pure (rowEntry p sm row perm))
    (List.range B) rows.length hmem hfail
  unfold dataGeneration
  rw [hmap]
  rfl

/-! ### Concrete example data used by witnesses and scenario claims -/

def exRow10 : List Int := [3, 1, 4, 1, 5, 9, 2, 6, 5, 3]

def exPerm10 : List Nat := [7, 2, 9, 4, 0, 1, 8, 6, 3, 5]

def exTable5 : List (List Int) :=
  [[0, 1, 2], [1, 3, 4], [2, 5, 6], [3, 7, 8], [4, 9, 10]]

def tbl0 : List (List Int) := [[1, 2], [3, 4], [5, 6]]

/-! ### Claim theorems -/

/-- C1: for every row of C columns and every mask percentage p in [0,100),
the index sets produced by `mask_and_ind` are each sorted ascending, their
concatenation is a permutation of `{0..C-1}` (so they are disjoint and their
union is exactly `{0..C-1}`), the kept set has size
`K = floor((100-p)*C/100)`, the sizes sum to C, and the sets are disjoint. -/
theorem mask_partition_invariant (p : Nat) (row : List Int) (perm : List Nat)
    (hp : p < 100) (hperm : perm.Perm (List.range row.length)) :
    List.Sorted (· ≤ ·) (mask_and_ind_row p row perm).2.1 ∧
    List.Sorted (· ≤ ·) (mask_and_ind_row p row perm).2.2 ∧
    ((mask_and_ind_row p row perm).2.1 ++
      (mask_and_ind_row p row perm).2.2).Perm (List.range row.length) ∧
    (mask_and_ind_row p row perm).2.1.length = keptCount p row.length ∧
    (mask_and_ind_row p row perm).2.1.length +
      (mask_and_ind_row p row perm).2.2.length = row.length ∧
    ∀ j ∈ (mask_and_ind_row p row perm).2.1,
      j ∉ (mask_and_ind_row p row perm).2.2 := by
  have hkept : (mask_and_ind_row p row perm).2.1 =
      List.insertionSort (· ≤ ·)
        (perm.drop (row.length - keptCount p row.length)) := rfl
  have hmask : (mask_and_ind_row p row perm).2.2 =
      List.insertionSort (· ≤ ·)
        (perm.take (row.length - keptCount p row.length)) := rfl
  have hlenp : perm.length = row.length :=
    hperm.length_eq.trans (List.length_range _)
  have hKle : keptCount p row.length ≤ row.length := keptCount_le p row.length
  have hkp : (mask_and_ind_row p row perm).2.1.Perm
      (perm.drop (row.length - keptCount p row.length)) := by
    rw [hkept]; exact List.perm_insertionSort _ _
  have hmp : (mask_and_ind_row p row perm).2.2.Perm
      (perm.take (row.length - keptCount p row.length)) := by
    rw [hmask]; exact List.perm_insertionSort _ _
  have happ : ((mask_and_ind_row p row perm).2.1 ++
      (mask_and_ind_row p row perm).2.2).Perm (List.range row.length) := by
    refine ((hkp.append hmp).trans ?_).trans hperm
    refine (List.perm_append_comm).trans ?_
    rw [List.take_append_drop]
  have hklen : (mask_and_ind_row p row perm).2.1.length =
      keptCount p row.length := by
    rw [hkp.length_eq, List.length_drop, hlenp]
    omega
  have hmlen : (mask_and_ind_row p row perm).2.2.length =
      row.length - keptCount p row.length := by
    rw [hmp.length_eq, List.length_take, hlenp]
    omega
  have hnd : ((mask_and_ind_row p row perm).2.1 ++
      (mask_and_ind_row p row perm).2.2).Nodup :=
    happ.nodup_iff.mpr (List.nodup_range _)
  refine ⟨?_, ?_, happ, hklen, by omega, ?_⟩
  · rw [hkept]; exact List.sorted_insertionSort _ _
  · rw [hmask]; exact List.sorted_insertionSort _ _
  · intro j hj hj2
    exact List.disjoint_of_nodup_append hnd hj hj2

theorem mask_partition_invariant_witness :
    30 < 100 ∧
    ((mask_and_ind_row 30 exRow10 exPerm10).2.1 ++
      (mask_and_ind_row 30 exRow10 exPerm10).2.2).Perm
        (List.range exRow10.length) ∧
    (mask_and_ind_row 30 exRow10 exPerm10).2.1.length =
      keptCount 30 exRow10.length :=
  ⟨by decide,
   (mask_partition_invariant 30 exRow10 exPerm10 (by decide) (by decide)).2.2.1,
   (mask_partition_invariant 30 exRow10 exPerm10 (by decide) (by decide)).2.2.2.1⟩

/-- C3 counterexample: on the 2-column row `[10, 20]` with mask
percentage 50 (so K = 1) and drawn permutation `[0, 1]`, the code's kept
index set `[1]` differs from the spec's stated assignment (first K entries
of the permutation → kept), which would give `[0]`. -/
theorem mask_assignment_spec_cex :
    (mask_and_ind_row 50 ([10, 20] : List Int) [0, 1]).2.1 ≠
    (mask_and_ind_spec 50 ([10, 20] : List Int) [0, 1]).2.1 := by decide

/-- C3 amended: `mask_and_ind` assigns the permutation's FIRST `C-K`
entries (after sorting ascending) to the MASKED index set and the
permutation's LAST `K` entries (after sorting ascending) to the KEPT index
set; the kept values are the row gathered at the kept indices. -/
theorem mask_assignment_amended (p : Nat) (row : List Int) (perm : List Nat) :
    (mask_and_ind_row p row perm).2.2.Perm
      (perm.take (row.length - keptCount p row.length)) ∧
    List.Sorted (· ≤ ·) (mask_and_ind_row p row perm).2.2 ∧
    (mask_and_ind_row p row perm).2.1.Perm
      (perm.drop (row.length - keptCount p row.length)) ∧
    List.Sorted (· ≤ ·) (mask_and_ind_row p row perm).2.1 ∧
    (mask_and_ind_row p row perm).1 =
      (mask_and_ind_row p row perm).2.1.map (fun j => row.getD j 0) :=
  ⟨List.perm_insertionSort _ _, List.sorted_insertionSort _ _,
   List.perm_insertionSort _ _, List.sorted_insertionSort _ _, rfl⟩

/-- C4 counterexample: a `DataGenerator` built over 5 rows with batch size
10 raises no error at construction; it silently reports zero batches. -/
theorem oversized_batch_is_silent :
    (mkDataGenerator 3 exTable5 (List.range 5) 15 10).len = 0 := rfl

/-- C4 amended: `DataGenerator.__init__` performs no batch-size validation;
when the batch size exceeds the dataset length the generator silently
produces zero batches (`len = 0`). The orchestrator avoids this by clamping
`batch_size` to `min(batch_size, train_len, test_len)` beforehand. -/
theorem no_batch_size_validation (numColumns mask_pct B : Nat)
    (table : List (List Int)) (idxs : List Nat) (h : idxs.length < B) :
    (mkDataGenerator numColumns table idxs mask_pct B).len = 0 ∧
    ∀ b t1 t2 : Nat, clampBatchSize b t1 t2 ≤ b ∧
      clampBatchSize b t1 t2 ≤ t1 ∧ clampBatchSize b t1 t2 ≤ t2 := by
  refine ⟨Nat.div_eq_of_lt h, fun b t1 t2 => ⟨min_le_left _ _, ?_, ?_⟩⟩
  · exact le_trans (min_le_right _ _) (min_le_left _ _)
  · exact le_trans (min_le_right _ _) (min_le_right _ _)

theorem no_batch_size_validation_witness :
    (mkDataGenerator 3 exTable5 (List.range 5) 15 7).len = 0 :=
  (no_batch_size_validation 3 15 7 exTable5 (List.range 5) (by decide)).1

/-- C5: when the initial weight load succeeds the fit loop never runs and
exactly one load call is made; when it raises, the full fit loop runs for
`num_epochs` epochs and the best checkpoint is re-loaded before returning. -/
theorem checkpoint_probe_behavior (n : Nat) :
    train_checkpoint_events true n = [TrainEvent.loadAttempt true] ∧
    (train_checkpoint_events true n).countP
      (fun e => match e with
        | TrainEvent.loadAttempt _ => true
        | TrainEvent.fitLoop _ => false) = 1 ∧
    (train_checkpoint_events true n).countP
      (fun e => match e with
        | TrainEvent.loadAttempt _ => false
        | TrainEvent.fitLoop _ => true) = 0 ∧
    train_checkpoint_events false n =
      [TrainEvent.loadAttempt false, TrainEvent.fitLoop n,
       TrainEvent.loadAttempt true] :=
  ⟨rfl, rfl, rfl, rfl⟩

/-- C6: when the per-row masked-index count is at least 2 the masked-position
stream is the position-embedding lookup at the masked indices; when it is
below 2 the embedder returns the explicit empty stream without a lookup. -/
theorem embedder_mask_stream (table : List (List Int)) (x : List (List Int))
    (pu pm : List (List Nat)) :
    (2 ≤ (pm.getD 0 []).length →
      (tokenAndPositionEmbedding_call table x pu pm).maskStream =
        pm.map (posEmbLookup table)) ∧
    ((pm.getD 0 []).length < 2 →
      (tokenAndPositionEmbedding_call table x pu pm).maskStream = []) := by
  refine ⟨fun h => ?_, fun h => ?_⟩
  · unfold tokenAndPositionEmbedding_call
    rw [if_pos h]
  · unfold tokenAndPositionEmbedding_call
    rw [if_neg (by omega : ¬ 2 ≤ (pm.getD 0 []).length)]

theorem embedder_mask_stream_witness :
    (tokenAndPositionEmbedding_call tbl0 [[7]] [[1]] [[0, 2]]).maskStream =
      ([[0, 2]] : List (List Nat)).map (posEmbLookup tbl0) ∧
    (tokenAndPositionEmbedding_call tbl0 [[7]] [[1]] [[0]]).maskStream = [] :=
  ⟨(embedder_mask_stream tbl0 [[7]] [[1]] [[0, 2]]).1 (by decide),
   (embedder_mask_stream tbl0 [[7]] [[1]] [[0]]).2 (by decide)⟩

def longPathVal : String := String.mk (List.replicate 260 'a')

/-- The attribute dictionary of a `Paths` object whose `working_dir`
value is 260 characters long. -/
def pathsAttrs : List (String × String) :=
  [("base", "met"), ("name", "paths"), ("working_dir", longPathVal),
   ("data_dir", "./data"), ("config_dir", "./config")]

set_option maxRecDepth 4000 in
/-- C9: `Paths.validate_path_len` iterates over `self.__dict__`, i.e. the
attribute NAMES, so a `Paths` object holding a 260-character path VALUE
passes validation (no assertion fires), contradicting the claim that such
an object fails it. -/
theorem paths_validation_ignores_values :
    validate_path_len pathsAttrs = true ∧ 260 ≤ longPathVal.length := by
  constructor
  · rfl
  · decide

theorem getD_range_of_lt (n i : Nat) (h : i < n) : (List.range n).getD i 0 = i := by
  rw [List.getD_eq_getElem?_getD, List.getElem?_range h]
  rfl

/-- Field access into `batchOf` at a position inside the batch. -/
theorem batchOf_fields (p B sm : Nat) (rows : List (List Int))
    (perms : List (List Nat)) (i : Nat) (hi : i < B) :
    (batchOf p B sm rows perms).x1.getD i [] =
      (rowEntry p sm (rows.getD i []) (perms.getD i [])).ki ∧
    (batchOf p B sm rows perms).x2.getD i [] =
      (rowEntry p sm (rows.getD i []) (perms.getD i [])).mi ∧
    (batchOf p B sm rows perms).y.getD i [] =
      (rowEntry p sm (rows.getD i []) (perms.getD i [])).tgt.map
        (fun v => [v]) := by
  have hlen : i < (List.range B).length := by
    rw [List.length_range]; exact hi
  unfold batchOf
  simp only [List.map_map]
  refine ⟨?_, ?_, ?_⟩ <;>
    rw [getD_map_of_lt _ _ i 0 _ hlen, getD_range_of_lt B i hi] <;> rfl

/-- C2: for every row in every batch, the assembled target row equals the
original row's values gathered at the concatenation of kept indices followed
by masked indices (each wrapped in the trailing singleton axis that
`np.expand_dims` adds), so every target position round-trips to the original
value at its reconstructed column index. -/
theorem target_round_trip (p B sm : Nat) (rows : List (List Int))
    (perms : List (List Nat)) (hr : B ≤ rows.length) (hq : B ≤ perms.length)
    (b : Batch) (hb : dataGeneration p B sm rows perms = some b) (i : Nat)
    (hi : i < B) :
    b.y.getD i [] =
      ((b.x1.getD i []) ++ (b.x2.getD i [])).map
        (fun jx => [(rows.getD i []).getD jx 0]) ∧
    ∀ j < (b.y.getD i []).length,
      (b.y.getD i []).getD j [] =
        [(rows.getD i []).getD
          (((b.x1.getD i []) ++ (b.x2.getD i [])).getD j 0) 0] := by
  have hbb : batchOf p B sm rows perms = b :=
    Option.some.inj
      ((dataGeneration_eq_batchOf p B sm rows perms hr hq).symm.trans hb)
  subst hbb
  obtain ⟨h1, h2, h3⟩ := batchOf_fields p B sm rows perms i hi
  rw [h1, h2, h3]
  have hfirst : (rowEntry p sm (rows.getD i []) (perms.getD i [])).tgt.map
      (fun v => [v]) =
      ((rowEntry p sm (rows.getD i []) (perms.getD i [])).ki ++
        (rowEntry p sm (rows.getD i []) (perms.getD i [])).mi).map
        (fun jx => [(rows.getD i []).getD jx 0]) := by
    rw [show (rowEntry p sm (rows.getD i []) (perms.getD i [])).tgt =
        ((rowEntry p sm (rows.getD i []) (perms.getD i [])).ki ++
          (rowEntry p sm (rows.getD i []) (perms.getD i [])).mi).map
          (fun j => (rows.getD i []).getD j 0) from rfl]
    rw [List.map_map]
    rfl
  refine ⟨hfirst, fun j hj => ?_⟩
  rw [hfirst] at hj ⊢
  rw [List.length_map] at hj
  exact getD_map_of_lt _ _ j 0 _ hj

theorem target_round_trip_witness :
    (batchOf 50 1 1 [[10, 20]] [[0, 1]]).y.getD 0 [] =
      (((batchOf 50 1 1 [[10, 20]] [[0, 1]]).x1.getD 0 []) ++
        ((batchOf 50 1 1 [[10, 20]] [[0, 1]]).x2.getD 0 [])).map
        (fun jx => [(([[10, 20]] : List (List Int)).getD 0 []).getD jx 0]) :=
  (target_round_trip 50 1 1 [[10, 20]] [[0, 1]] (by decide) (by decide)
    (batchOf 50 1 1 [[10, 20]] [[0, 1]]) (by decide) 0 (by decide)).1

/-- Any batch that `__data_generation` actually returns has exactly
`batch_size` rows in every stacked array. -/
theorem dataGeneration_some_length (p B sm : Nat) (rows : List (List Int))
    (perms : List (List Nat)) (b : Batch)
    (hb : dataGeneration p B sm rows perms = some b) :
    b.x0.length = B ∧ b.y.length = B := by
  unfold dataGeneration at hb
  cases hent : optionMapAll (fun i => do
      let row ← rows.get? i
      let perm ← perms.get? i
      pure (rowEntry p sm row perm)) (List.range B) with
  | none =>
    rw [hent] at hb
    exact absurd hb (by simp)
  | some entries =>
    rw [hent] at hb
    have hlen : entries.length = B := by
      have := optionMapAll_length _ _ _ hent
      simpa using this
    have hbb : ({ x0 := entries.map RowEntry.kv
                  x1 := entries.map RowEntry.ki
                  x2 := entries.map RowEntry.mi
                  x3 := entries.map RowEntry.ones
                  y := entries.map (fun e => e.tgt.map (fun v => [v])) } :
        Batch) = b := by
      simpa using hb
    rw [← hbb]
    simp [hlen]

/-- C7: `__len__` is `floor(N / B)`; every batch index below that length
selects a slice of exactly `batch_size` indexes, and any batch the
generator actually returns holds exactly `batch_size` rows — a partial
batch is never yielded. -/
theorem batches_per_epoch (dg : DataGenerator) :
    dg.len = dg.indexes.length / dg.batch_size ∧
    (∀ i, i < dg.len → (getItemSlice dg i).length = dg.batch_size) ∧
    (∀ perms i b, dg.getItem perms i = some b →
      b.x0.length = dg.batch_size ∧ b.y.length = dg.batch_size) := by
  refine ⟨rfl, fun i hi => ?_, fun perms i b hb => ?_⟩
  · unfold getItemSlice
    rw [List.length_take, List.length_drop]
    have hi' : i < dg.indexes.length / dg.batch_size := hi
    have h1 : (i + 1) * dg.batch_size ≤
        (dg.indexes.length / dg.batch_size) * dg.batch_size :=
      Nat.mul_le_mul_right _ hi'
    have h2 := Nat.div_mul_le_self dg.indexes.length dg.batch_size
    have h4 : (i + 1) * dg.batch_size =
        i * dg.batch_size + dg.batch_size := by ring
    omega
  · unfold DataGenerator.getItem at hb
    cases hrows : optionMapAll
        (fun ix => (dg.table.get? ix).map (List.drop 1))
        (getItemSlice dg i) with
    | none =>
      rw [hrows] at hb
      exact absurd hb (by simp)
    | some rows =>
      rw [hrows] at hb
      simp only [Option.bind_eq_bind, Option.some_bind] at hb
      exact dataGeneration_some_length _ _ _ _ _ _ hb

def dg5 : DataGenerator := mkDataGenerator 3 exTable5 (List.range 5) 15 2

theorem batches_per_epoch_witness :
    (getItemSlice dg5 1).length = dg5.batch_size :=
  (batches_per_epoch dg5).2.1 1 (by decide)

/-- C10: with a batch size that does not divide the dataset length,
requesting a batch at an index at or past `floor(N/B)` leaves the index
slice with fewer than `batch_size` rows, and batch assembly — which loops
over exactly `batch_size` positions — fails with an index error (`none`)
instead of returning a shorter batch. -/
theorem getItem_out_of_range (dg : DataGenerator) (perms : List (List Nat))
    (i : Nat) (hB : 0 < dg.batch_size)
    (hnd : ¬ dg.batch_size ∣ dg.indexes.length) (hi : dg.len ≤ i)
    (hix : ∀ ix ∈ dg.indexes, ix < dg.table.length) :
    dg.getItem perms i = none := by
  have hslice : (getItemSlice dg i).length < dg.batch_size := by
    unfold getItemSlice
    rw [List.length_take, List.length_drop]
    have hi' : dg.indexes.length / dg.batch_size ≤ i := hi
    have h1 : (dg.indexes.length / dg.batch_size) * dg.batch_size ≤
        i * dg.batch_size := Nat.mul_le_mul_right _ hi'
    have h2 := Nat.div_add_mod dg.indexes.length dg.batch_size
    have h2' : dg.batch_size * (dg.indexes.length / dg.batch_size) =
        (dg.indexes.length / dg.batch_size) * dg.batch_size := Nat.mul_comm _ _
    have h3 : dg.indexes.length % dg.batch_size < dg.batch_size :=
      Nat.mod_lt _ hB
    omega
  have hrowsmap : optionMapAll
      (fun ix => (dg.table.get? ix).map (List.drop 1))
      (getItemSlice dg i) =
      some ((getItemSlice dg i).map
        (fun ix => (dg.table.getD ix []).drop 1)) := by
    apply optionMapAll_eq_map
    intro ix hm
    have hmem : ix ∈ dg.indexes :=
      List.drop_subset _ _ (List.take_subset _ _ hm)
    rw [get?_eq_some_getD dg.table ix [] (hix ix hmem)]
    rfl
  unfold DataGenerator.getItem
  rw [hrowsmap]
  simp only [Option.bind_eq_bind, Option.some_bind]
  apply dataGeneration_none_of_short
  rw [List.length_map]
  exact hslice

theorem getItem_out_of_range_witness : dg5.getItem [] 2 = none :=
  getItem_out_of_range dg5 [] 2 (by decide) (by decide) (by decide)
    (by decide)

/-- Table for the C=10-column scenario: 4 rows, each a leading identifier
column plus 10 feature columns. -/
def exTable4x11 : List (List Int) :=
  [[900, 0, 1, 2, 3, 4, 5, 6, 7, 8, 9],
   [901, 10, 11, 12, 13, 14, 15, 16, 17, 18, 19],
   [902, 20, 21, 22, 23, 24, 25, 26, 27, 28, 29],
   [903, 30, 31, 32, 33, 34, 35, 36, 37, 38, 39]]

def dg8 : DataGenerator := mkDataGenerator 11 exTable4x11 [0, 1, 2, 3] 30 4

/-- Four drawn permutations of `{0..9}`, one per row of the batch. -/
def perms8 : List (List Nat) :=
  [[7, 2, 9, 4, 0, 1, 8, 6, 3, 5],
   [0, 1, 2, 3, 4, 5, 6, 7, 8, 9],
   [9, 8, 7, 6, 5, 4, 3, 2, 1, 0],
   [5, 0, 6, 1, 7, 2, 8, 3, 9, 4]]

/-- The numpy shape of the target array `Y_train` as returned (three axes). -/
def yShape3 (b : Batch) : List Nat :=
  [b.y.length, (b.y.getD 0 []).length, ((b.y.getD 0 []).getD 0 []).length]

/-- C8 counterexample: in the C=10, mask_pct=30, B=4 scenario the returned
target array has shape (4, 10, 1) — `np.expand_dims(Y_train, -1)` appends a
trailing singleton axis — which is not the claimed shape (4, 10). -/
theorem scenario_target_shape_cex :
    (dg8.getItem perms8 0).map yShape3 = some [4, 10, 1] ∧
    ([4, 10, 1] : List Nat) ≠ [4, 10] :=
  ⟨rfl, by decide⟩

/-- C8 amended: C=10 columns with mask_pct=30 give K=7 kept and 3 masked
columns; a batch of B=4 rows yields kept-values shape (4, 7),
masked-indices shape (4, 3), and a target of shape (4, 10, 1): 10 entries
per row, each a singleton along the trailing expand_dims axis. -/
theorem scenario_c10_p30_shapes :
    keptCount 30 10 = 7 ∧
    (dg8.getItem perms8 0).map (fun b =>
      (b.x0.length, b.x0.map List.length,
       b.x2.length, b.x2.map List.length,
       b.y.length, b.y.map List.length,
       b.y.map (fun r => r.map List.length))) =
      some (4, [7, 7, 7, 7], 4, [3, 3, 3, 3], 4, [10, 10, 10, 10],
        [List.replicate 10 1, List.replicate 10 1, List.replicate 10 1,
         List.replicate 10 1]) :=
  ⟨rfl, rfl⟩

end MET
